import Mathlib

/-!
# go-metrics: the in-memory aggregator, the section tracker and the HTTP middleware

A shallow embedding of `metrics/metrics.go`, `metrics/timer.go` and
`metrics/prometheus.go`.

Modelling decisions

* A Go `string` is a sequence of bytes (`GoString`); it need not be valid UTF-8.  The
  string literals of the source are UTF-8 text and are written as Lean string literals,
  which are encoded by `GoString.ofText`.
* `time.Duration` is an `int64` count of nanoseconds.  Durations are `Int` and every
  `+=` on a duration goes through `wrapInt64`, because one exported call
  (`RecordBusinessLatency`) accepts any duration and two calls are enough to leave the
  `int64` range.
* `sectionSamples` and `customCounters` are `int64` counters that only ever move by
  `++`.  They would need `2^63` calls to leave the `int64` range, so they are kept as
  integers without wrap-around.  The same holds for the Prometheus counters that only
  ever move by `Inc`.
* The three package-level Go maps are association lists: a missing key reads as the
  zero value, an assignment replaces the entry or appends a new one.  Go iterates a map
  in an unspecified order; the model iterates in insertion order.
* The Prometheus collectors are an external library.  A counter series is modelled by
  the integer it stores, a histogram series by the list of durations observed (newest
  first); the conversion `duration.Seconds()` to `float64` and the bucketing are not
  modelled.  `WithLabelValues` panics when a label value is not valid UTF-8, and
  `Counter.Add` receives a `float64`: both are modelled.
* The mutex only makes each operation atomic; every operation is one step on `State`.
* `log.Printf` appends a structured line to `State.log`; number formatting is not
  modelled.
-/

namespace GoMetrics

/-! ## Machine integers and time -/

/-- Two's-complement reduction of an integer into the `int64` range. -/
def wrapInt64 (x : Int) : Int := (x + 2 ^ 63) % 2 ^ 64 - 2 ^ 63

/-- Largest `time.Duration`. -/
def maxDuration : Int := 2 ^ 63 - 1

/-- Smallest `time.Duration`. -/
def minDuration : Int := -(2 ^ 63)

/-- Go's `time.subMono`: the difference of two monotonic clock readings, saturating at
`maxDuration` and `minDuration` when the `int64` subtraction overflows. -/
def subMono (t u : Int) : Int :=
  let d := wrapInt64 (t - u)
  if d < 0 ∧ t > u then maxDuration
  else if d > 0 ∧ t < u then minDuration
  else d

/-- Go's `time.Since(start)` evaluated when the monotonic clock reads `now`. -/
def timeSince (start now : Int) : Int := subMono now start

/-- Number of bits by which `n` exceeds the 53-bit significand of a `float64`; `fuel`
bounds the number of halvings and 64 is enough for every 64-bit integer. -/
def excessBits : Nat → Nat → Nat
  | 0, _ => 0
  | fuel + 1, n => if n < 2 ^ 53 then 0 else excessBits fuel (n / 2) + 1

/-- The value of the conversion `float64(n)` for a non-negative integer `n` below
`2^64`: the nearest integer with a 53-bit significand, ties to even. -/
def float64OfNat (n : Nat) : Nat :=
  let e := excessBits 64 n
  let q := n / 2 ^ e
  let r := n % 2 ^ e
  if 2 * r > 2 ^ e ∨ (2 * r = 2 ^ e ∧ q % 2 = 1) then (q + 1) * 2 ^ e else q * 2 ^ e

/-! ## Go strings -/

/-- A Go `string`: a sequence of bytes, each `0..255`. -/
structure GoString where
  /-- The bytes of the string. -/
  bytes : List Nat
  deriving DecidableEq, Repr

/-- The UTF-8 encoding of one code point. -/
def encodeRune (c : Nat) : List Nat :=
  if c < 0x80 then [c]
  else if c < 0x800 then [0xC0 + c / 64, 0x80 + c % 64]
  else if c < 0x10000 then [0xE0 + c / 4096, 0x80 + c / 64 % 64, 0x80 + c % 64]
  else [0xF0 + c / 262144, 0x80 + c / 4096 % 64, 0x80 + c / 64 % 64, 0x80 + c % 64]

/-- The UTF-8 encoding of a list of characters. -/
def encodeChars : List Char → List Nat
  | [] => []
  | c :: rest => encodeRune c.toNat ++ encodeChars rest

/-- The Go string holding the UTF-8 encoding of a text, as a Go string literal does. -/
def GoString.ofText (text : String) : GoString := { bytes := encodeChars text.data }

instance : Coe String GoString := ⟨GoString.ofText⟩

/-- Whether a byte is a UTF-8 continuation byte within `lo..hi`. -/
def inRange (lo hi b : Nat) : Bool := decide (lo ≤ b) && decide (b ≤ hi)

/-- Go's `utf8.Valid` on a byte sequence. -/
def validBytes : List Nat → Bool
  | [] => true
  | b0 :: rest =>
    if b0 < 0x80 then validBytes rest
    else
      match rest with
      | [] => false
      | b1 :: rest1 =>
        if inRange 0xC2 0xDF b0 then inRange 0x80 0xBF b1 && validBytes rest1
        else
          match rest1 with
          | [] => false
          | b2 :: rest2 =>
            if b0 = 0xE0 then
              inRange 0xA0 0xBF b1 && inRange 0x80 0xBF b2 && validBytes rest2
            else if inRange 0xE1 0xEC b0 || inRange 0xEE 0xEF b0 then
              inRange 0x80 0xBF b1 && inRange 0x80 0xBF b2 && validBytes rest2
            else if b0 = 0xED then
              inRange 0x80 0x9F b1 && inRange 0x80 0xBF b2 && validBytes rest2
            else
              match rest2 with
              | [] => false
              | b3 :: rest3 =>
                if b0 = 0xF0 then
                  inRange 0x90 0xBF b1 && inRange 0x80 0xBF b2 && inRange 0x80 0xBF b3
                    && validBytes rest3
                else if inRange 0xF1 0xF3 b0 then
                  inRange 0x80 0xBF b1 && inRange 0x80 0xBF b2 && inRange 0x80 0xBF b3
                    && validBytes rest3
                else if b0 = 0xF4 then
                  inRange 0x80 0x8F b1 && inRange 0x80 0xBF b2 && inRange 0x80 0xBF b3
                    && validBytes rest3
                else false

/-- Go's `utf8.ValidString`. -/
def GoString.validUTF8 (s : GoString) : Bool := validBytes s.bytes

/-- The check Prometheus makes in `WithLabelValues`: every label value is valid
UTF-8. -/
def labelsValid (labels : List GoString) : Bool := labels.all GoString.validUTF8

/-- Decimal digits of `u`, most significant first, put in front of `acc`; `fuel` bounds
the number of digits. -/
def formatDigits : Nat → Nat → List Nat → List Nat
  | 0, _, acc => acc
  | fuel + 1, u, acc =>
    if u < 10 then (48 + u) :: acc else formatDigits fuel (u / 10) ((48 + u % 10) :: acc)

/-- Go's `strconv.Itoa`: a minus sign for a negative number, then the decimal digits of
the magnitude. -/
def Itoa (n : Int) : GoString :=
  if n < 0 then { bytes := 45 :: formatDigits 20 n.natAbs [] }
  else { bytes := formatDigits 20 n.natAbs [] }

/-! ## Go maps -/

/-- A Go `map[string]int64` (also used for `map[string]time.Duration`). -/
abbrev GoMap := List (GoString × Int)

/-- Map read `m[k]`: the stored value, or the zero value when the key is absent. -/
def GoMap.get : GoMap → GoString → Int
  | [], _ => 0
  | (k', v) :: rest, k => if k' = k then v else GoMap.get rest k

/-- Key presence, the `ok` of `_, ok := m[k]`. -/
def GoMap.has : GoMap → GoString → Bool
  | [], _ => false
  | (k', _) :: rest, k => if k' = k then true else GoMap.has rest k

/-- Map write `m[k] = v`. -/
def GoMap.set : GoMap → GoString → Int → GoMap
  | [], k, v => [(k, v)]
  | (k', v') :: rest, k, v =>
    if k' = k then (k, v) :: rest else (k', v') :: GoMap.set rest k v

/-! ## Process state -/

/-- One line written by `log.Printf`; the payload is kept structured. -/
inductive LogLine where
  /-- The line `metrics.track: section=.. phase=start`. -/
  | trackStart (name : GoString)
  /-- The line `metrics.track: section=.. duration_ms=..`. -/
  | trackDuration (name : GoString) (duration : Int)
  /-- The line `metrics.snapshot: section=.. count=.. avg_ms=..`. -/
  | snapshotSection (name : GoString) (count : Int) (avg : Int)
  /-- The line `metrics.snapshot: counter=.. value=..`. -/
  | snapshotCounter (name : GoString) (value : Int)
  deriving DecidableEq, Repr

/-- The package-level variables of `metrics.go` and `prometheus.go`, and the log. -/
structure State where
  /-- The map `sectionTotals` of `metrics.go`. -/
  sectionTotals : GoMap
  /-- The map `sectionSamples` of `metrics.go`. -/
  sectionSamples : GoMap
  /-- The map `customCounters` of `metrics.go`. -/
  customCounters : GoMap
  /-- Counter vector `http_requests_total`, labels method and path. -/
  requestCounter : List GoString → Nat
  /-- Counter vector `http_errors_total`, labels method, path and status. -/
  errorCounter : List GoString → Nat
  /-- Histogram vector `http_request_duration_seconds`, labels method and path. -/
  requestLatency : List GoString → List Int
  /-- Histogram vector `section_duration_seconds`, label section. -/
  sectionLatency : List GoString → List Int
  /-- Histogram vector `business_latency_seconds`, label operation. -/
  businessLatency : List GoString → List Int
  /-- Counter `work_loop_iterations_total`: the `uint64` in which the Prometheus counter
  accumulates integral additions.  Its float part stays zero, since every argument it
  receives is integral. -/
  loopIterations : Nat
  /-- Counter `json_encode_errors_total`. -/
  jsonErrorCounter : Nat
  /-- Lines written to the process log, oldest first. -/
  log : List LogLine

/-- The state right after package initialisation: empty maps, no series, empty log. -/
def initialState : State where
  sectionTotals := []
  sectionSamples := []
  customCounters := []
  requestCounter := fun _ => 0
  errorCounter := fun _ => 0
  requestLatency := fun _ => []
  sectionLatency := fun _ => []
  businessLatency := fun _ => []
  loopIterations := 0
  jsonErrorCounter := 0
  log := []

/-- Prometheus `Counter.Inc()` on the series `labels` of a counter vector. -/
def incSeries (c : List GoString → Nat) (labels : List GoString) : List GoString → Nat :=
  fun k => if k = labels then c k + 1 else c k

/-- Prometheus `Observe(d.Seconds())` on the series `labels` of a histogram vector. -/
def observeSeries (h : List GoString → List Int) (labels : List GoString) (d : Int) :
    List GoString → List Int :=
  fun k => if k = labels then d :: h k else h k

/-- A state together with the information whether the call panicked. -/
structure Outcome where
  /-- The state the call leaves behind. -/
  state : State
  /-- Whether the call ended in a panic. -/
  panicked : Bool

/-! ## metrics.go -/

/-- The function `recordDuration` of `metrics.go`. -/
def recordDuration (name : GoString) (d : Int) (s : State) : State :=
  { s with
    sectionTotals := s.sectionTotals.set name (wrapInt64 (s.sectionTotals.get name + d))
    sectionSamples := s.sectionSamples.set name (s.sectionSamples.get name + 1) }

/-- The function `incrementCounter` of `metrics.go`. -/
def incrementCounter (name : GoString) (s : State) : State :=
  { s with customCounters := s.customCounters.set name (s.customCounters.get name + 1) }

/-! ## prometheus.go: the observation helpers -/

/-- The function `ObserveSectionLatency` of `prometheus.go`:
`sectionLatency.WithLabelValues(section)` panics when `section` is not valid UTF-8,
otherwise the series receives one observation. -/
def ObserveSectionLatency (name : GoString) (duration : Int) (s : State) : Outcome :=
  if labelsValid [name] then
    { state := { s with sectionLatency := observeSeries s.sectionLatency [name] duration },
      panicked := false }
  else { state := s, panicked := true }

/-- The function `ObserveBusinessLatency` of `prometheus.go`:
`businessLatency.WithLabelValues(operation)` panics when `operation` is not valid UTF-8,
otherwise the series receives one observation. -/
def ObserveBusinessLatency (operation : GoString) (duration : Int) (s : State) :
    Outcome :=
  if labelsValid [operation] then
    { state := { s with
        businessLatency := observeSeries s.businessLatency [operation] duration },
      panicked := false }
  else { state := s, panicked := true }

/-- The function `ObserveLoopIterations` of `prometheus.go`, for an integral `float64`
argument `iterations` (the only kind `AddLoopIterations` passes).  Prometheus
`Counter.Add` panics on a negative argument and leaves the counter untouched; an integral
argument is converted to `uint64` and added to the stored `uint64`, which wraps at
`2^64`. -/
def ObserveLoopIterations (iterations : Int) (s : State) : Outcome :=
  if iterations < 0 then { state := s, panicked := true }
  else
    { state := { s with loopIterations := (s.loopIterations + iterations.toNat) % 2 ^ 64 },
      panicked := false }

/-- The function `IncJSONError` of `prometheus.go`. -/
def IncJSONError (s : State) : State :=
  { s with jsonErrorCounter := s.jsonErrorCounter + 1 }

/-- The conversion `float64(iterations)` of a Go `int`. -/
def float64OfInt (n : Int) : Int :=
  if n < 0 then -((float64OfNat n.natAbs : Nat) : Int) else ((float64OfNat n.toNat : Nat) : Int)

/-! ## metrics.go: the exported operations -/

/-- The function `RecordBusinessLatency` of `metrics.go`. -/
def RecordBusinessLatency (operation : GoString) (d : Int) (s : State) : Outcome :=
  ObserveBusinessLatency operation d (recordDuration operation d s)

/-- The function `CountJSONError` of `metrics.go`. -/
def CountJSONError (s : State) : State :=
  IncJSONError (incrementCounter "json_encode_error" s)

/-- The function `AddLoopIterations` of `metrics.go`. -/
def AddLoopIterations (iterations : Int) (s : State) : Outcome :=
  ObserveLoopIterations (float64OfInt iterations) (incrementCounter "loop_iterations" s)

/-- The lines `LogSnapshot` prints for the sections: one per entry of `sectionTotals`. -/
def snapshotSections (s : State) : List LogLine :=
  s.sectionTotals.map fun entry =>
    let count := s.sectionSamples.get entry.1
    let avg := if count > 0 then Int.tdiv entry.2 count else 0
    LogLine.snapshotSection entry.1 count avg

/-- The lines `LogSnapshot` prints for the counters: one per entry of `customCounters`. -/
def snapshotCounters (s : State) : List LogLine :=
  s.customCounters.map fun entry => LogLine.snapshotCounter entry.1 entry.2

/-- The function `LogSnapshot` of `metrics.go`: it only reads the maps and logs. -/
def LogSnapshot (s : State) : State :=
  { s with log := s.log ++ snapshotSections s ++ snapshotCounters s }

/-! ## timer.go -/

/-- The closure returned by `Track`: it captures `section` and `start`. -/
structure Tracker where
  /-- The captured section name. -/
  name : GoString
  /-- The captured clock reading `start`. -/
  start : Int
  deriving DecidableEq, Repr

/-- The function `Track` of `timer.go`, called when the clock reads `start`. -/
def Track (name : GoString) (start : Int) (s : State) : Tracker × State :=
  ({ name := name, start := start },
   { s with log := s.log ++ [LogLine.trackStart name] })

/-- One call of the closure returned by `Track`, made when the clock reads `now`: it
logs, runs `recordDuration` and then `ObserveSectionLatency`, whose panic it passes
on. -/
def Tracker.stop (t : Tracker) (now : Int) (s : State) : Outcome :=
  let duration := timeSince t.start now
  let logged := { s with log := s.log ++ [LogLine.trackDuration t.name duration] }
  ObserveSectionLatency t.name duration (recordDuration t.name duration logged)

/-! ## prometheus.go: the middleware -/

/-- The status `http.StatusOK`. -/
def StatusOK : Int := 200

/-- The status `http.StatusInternalServerError`. -/
def StatusInternalServerError : Int := 500

/-- The real `http.ResponseWriter` behind the recorder, seen through the `WriteHeader`
calls it receives (oldest first). -/
structure ResponseWriter where
  /-- Status codes passed to `WriteHeader`, in call order. -/
  headerCalls : List Int
  deriving DecidableEq, Repr

/-- The type `statusRecorder` of `prometheus.go`. -/
structure statusRecorder where
  /-- The embedded writer. -/
  ResponseWriter : ResponseWriter
  /-- The field `status`. -/
  status : Int
  deriving DecidableEq, Repr

/-- The method `statusRecorder.WriteHeader`. -/
def statusRecorder.WriteHeader (r : statusRecorder) (status : Int) : statusRecorder :=
  { ResponseWriter := { headerCalls := r.ResponseWriter.headerCalls ++ [status] }
    status := status }

/-- The part of `*http.Request` the middleware reads. -/
structure Request where
  /-- The field `r.Method`. -/
  Method : GoString
  /-- The field `r.URL.Path`. -/
  Path : GoString
  deriving DecidableEq, Repr

/-- What a call of `next.ServeHTTP(recorder, r)` leaves behind. -/
structure HandlerResult where
  /-- The recorder after the handler ran. -/
  recorder : statusRecorder
  /-- The metrics state after the handler ran. -/
  state : State
  /-- Whether the handler panicked instead of returning. -/
  panicked : Bool

/-- An inner `http.Handler`. -/
abbrev Handler := statusRecorder → Request → State → HandlerResult

/-- What one request through the instrumented handler leaves behind. -/
structure ServeResult where
  /-- The real writer after the request. -/
  writer : ResponseWriter
  /-- The status held by the recorder when the inner handler stopped. -/
  status : Int
  /-- The metrics state after the request. -/
  state : State
  /-- Whether the request ended in a panic that reached the caller. -/
  panicked : Bool

/-- The handler returned by `InstrumentHandler(next)`, serving request `r` on writer `w`;
the clock reads `start` before the inner handler runs and `now` after it returned.  A
panic of the inner handler passes through; so does the panic of `WithLabelValues` on a
label value that is not valid UTF-8. -/
def InstrumentHandler (next : Handler) (start now : Int) (w : ResponseWriter)
    (r : Request) (s : State) : ServeResult :=
  let recorder : statusRecorder := { ResponseWriter := w, status := StatusOK }
  let res := next recorder r s
  if res.panicked then
    { writer := res.recorder.ResponseWriter, status := res.recorder.status,
      state := res.state, panicked := true }
  else
    let duration := timeSince start now
    let labels := [r.Method, r.Path]
    if labelsValid labels then
      let counted := { res.state with
        requestCounter := incSeries res.state.requestCounter labels }
      let observed := { counted with
        requestLatency := observeSeries counted.requestLatency labels duration }
      if res.recorder.status ≥ StatusInternalServerError then
        if labelsValid (labels ++ [Itoa res.recorder.status]) then
          { writer := res.recorder.ResponseWriter, status := res.recorder.status,
            state := { observed with
              errorCounter :=
                incSeries observed.errorCounter (labels ++ [Itoa res.recorder.status]) },
            panicked := false }
        else
          { writer := res.recorder.ResponseWriter, status := res.recorder.status,
            state := observed, panicked := true }
      else
        { writer := res.recorder.ResponseWriter, status := res.recorder.status,
          state := observed, panicked := false }
    else
      { writer := res.recorder.ResponseWriter, status := res.recorder.status,
        state := res.state, panicked := true }

/-- An inner handler that calls `WriteHeader` once for every code of `codes`, in order,
and returns. -/
def headerWriter (codes : List Int) : Handler :=
  fun recorder _ s =>
    { recorder := codes.foldl statusRecorder.WriteHeader recorder, state := s,
      panicked := false }

/-- An inner handler that calls `WriteHeader` for every code of `codes` and then
panics. -/
def panickingHandler (codes : List Int) : Handler :=
  fun recorder _ s =>
    { recorder := codes.foldl statusRecorder.WriteHeader recorder, state := s,
      panicked := true }

/-- The run of the inner handler inside `InstrumentHandler`: the call
`next.ServeHTTP(recorder, r)` on a fresh recorder whose status starts at `StatusOK`. -/
def innerRun (next : Handler) (w : ResponseWriter) (r : Request) (s : State) :
    HandlerResult :=
  next { ResponseWriter := w, status := StatusOK } r s

/-! ## Runs of exported operations -/

/-- One call of an exported operation of the package. -/
inductive Op where
  /-- The call `Track(name)` when the clock reads `start`. -/
  | track (name : GoString) (start : Int)
  /-- A call of the closure of `Track(name)` taken at `start`, at clock reading `now`. -/
  | stop (name : GoString) (start now : Int)
  /-- The call `RecordBusinessLatency(operation, d)`. -/
  | recordBusinessLatency (operation : GoString) (d : Int)
  /-- The call `CountJSONError()`. -/
  | countJSONError
  /-- The call `AddLoopIterations(iterations)`. -/
  | addLoopIterations (iterations : Int)
  /-- The call `LogSnapshot()`. -/
  | logSnapshot
  deriving DecidableEq, Repr

/-- The state an operation leaves behind (also when it panics). -/
def Op.run : Op → State → State
  | Op.track name start, s => (Track name start s).2
  | Op.stop name start now, s =>
    (Tracker.stop { name := name, start := start } now s).state
  | Op.recordBusinessLatency operation d, s => (RecordBusinessLatency operation d s).state
  | Op.countJSONError, s => CountJSONError s
  | Op.addLoopIterations iterations, s => (AddLoopIterations iterations s).state
  | Op.logSnapshot, s => LogSnapshot s

/-- Whether the section or operation name an operation passes to Prometheus as a label
value is valid UTF-8. -/
def Op.namesValid : Op → Bool
  | Op.stop name _ _ => name.validUTF8
  | Op.recordBusinessLatency operation _ => operation.validUTF8
  | _ => true

/-- The section name and the duration an operation hands to `recordDuration`, if any. -/
def Op.recorded : Op → Option (GoString × Int)
  | Op.stop name start now => some (name, timeSince start now)
  | Op.recordBusinessLatency operation d => some (operation, d)
  | _ => none

/-- The state after a sequence of operations, each one atomic. -/
def runOps (ops : List Op) (s : State) : State :=
  ops.foldl (fun acc op => op.run acc) s

/-- The state after a sequence of `recordDuration(name, d)` calls. -/
def recordAll (calls : List (GoString × Int)) (s : State) : State :=
  calls.foldl (fun acc call => recordDuration call.1 call.2 acc) s

/-- Number of calls in `calls` made with section name `name`. -/
def callCount (calls : List (GoString × Int)) (name : GoString) : Int :=
  ((calls.filter fun call => call.1 = name).length : Int)

/-- Exact (unbounded) sum of the durations passed in `calls` with section name `name`. -/
def callSum (calls : List (GoString × Int)) (name : GoString) : Int :=
  ((calls.filter fun call => call.1 = name).map fun call => call.2).sum

/-- The call `Track(name)` at clock reading `start`, followed by one call of the returned
closure at clock reading `now`. -/
def trackThenStop (name : GoString) (start now : Int) (s : State) : State :=
  ((Track name start s).1.stop now (Track name start s).2).state

/-- The call `Track(name)` at clock reading `start`, followed by two calls of the same
returned closure, at clock readings `now1` and `now2`. -/
def trackThenStopTwice (name : GoString) (start now1 now2 : Int) (s : State) : State :=
  ((Track name start s).1.stop now2 (trackThenStop name start now1 s)).state

/-- The state after a sequence of `AddLoopIterations(n)` calls. -/
def addLoopAll (ns : List Int) (s : State) : State :=
  ns.foldl (fun acc n => (AddLoopIterations n acc).state) s

/-- The two views of the measurements agree name by name: the in-memory sample count is
the number of observations in the section histogram plus the number in the business
histogram. -/
def ViewsAgree (s : State) : Prop :=
  ∀ name : GoString,
    s.sectionSamples.get name
      = ((s.sectionLatency [name]).length : Int) + ((s.businessLatency [name]).length : Int)

/-! ## Lemmas on machine integers and maps -/

theorem wrapInt64_of_inRange (x : Int) (hlo : minDuration ≤ x) (hhi : x ≤ maxDuration) :
    wrapInt64 x = x := by
  unfold wrapInt64
  unfold minDuration at hlo
  unfold maxDuration at hhi
  omega

theorem wrapInt64_wrap_add (a b : Int) : wrapInt64 (wrapInt64 a + b) = wrapInt64 (a + b) := by
  unfold wrapInt64
  omega

theorem wrapInt64_ge_of_le_max (x : Int) (hhi : x ≤ maxDuration) : x ≤ wrapInt64 x := by
  unfold wrapInt64
  unfold maxDuration at hhi
  omega

theorem GoMap.get_set_same (m : GoMap) (k : GoString) (v : Int) : (m.set k v).get k = v := by
  induction m with
  | nil => simp [GoMap.set, GoMap.get]
  | cons entry rest ih =>
    obtain ⟨k', v'⟩ := entry
    by_cases h : k' = k
    · simp [GoMap.set, GoMap.get, h]
    · simp [GoMap.set, GoMap.get, h, ih]

theorem GoMap.get_set_other (m : GoMap) (k k' : GoString) (v : Int) (hne : k' ≠ k) :
    (m.set k v).get k' = m.get k' := by
  induction m with
  | nil =>
    have hne' : ¬ k = k' := fun h => hne h.symm
    simp [GoMap.set, GoMap.get, hne']
  | cons entry rest ih =>
    obtain ⟨k0, v0⟩ := entry
    by_cases h : k0 = k
    · have h0 : ¬ k0 = k' := fun e => hne (e.symm.trans h)
      have h1 : ¬ k = k' := fun e => hne e.symm
      simp [GoMap.set, GoMap.get, h, h0, h1]
    · by_cases h2 : k0 = k'
      · subst h2
        simp [GoMap.set, GoMap.get, h]
      · simp [GoMap.set, GoMap.get, h, h2, ih]

theorem GoMap.has_set_of_has (m : GoMap) (k k' : GoString) (v : Int)
    (hhas : m.has k' = true) : (m.set k v).has k' = true := by
  induction m with
  | nil => simp [GoMap.has] at hhas
  | cons entry rest ih =>
    obtain ⟨k0, v0⟩ := entry
    by_cases h : k0 = k
    · by_cases h2 : k0 = k'
      · have h3 : k = k' := h.symm.trans h2
        simp [GoMap.set, GoMap.has, h, h3]
      · have h3 : ¬ k = k' := fun e => h2 (h.trans e)
        simp only [GoMap.has, h2, if_false] at hhas
        simp [GoMap.set, GoMap.has, h, h3, hhas]
    · by_cases h2 : k0 = k'
      · subst h2
        simp [GoMap.set, GoMap.has, h]
      · simp only [GoMap.has, h2, if_false] at hhas
        simp [GoMap.set, GoMap.has, h, h2, ih hhas]

theorem GoMap.has_set_other (m : GoMap) (k k' : GoString) (v : Int) (hne : k' ≠ k) :
    (m.set k v).has k' = m.has k' := by
  induction m with
  | nil =>
    have hne' : ¬ k = k' := fun h => hne h.symm
    simp [GoMap.set, GoMap.has, hne']
  | cons entry rest ih =>
    obtain ⟨k0, v0⟩ := entry
    by_cases h : k0 = k
    · have h0 : ¬ k0 = k' := fun e => hne (e.symm.trans h)
      have h1 : ¬ k = k' := fun e => hne e.symm
      simp [GoMap.set, GoMap.has, h, h0, h1]
    · by_cases h2 : k0 = k'
      · subst h2
        simp [GoMap.set, GoMap.has, h]
      · simp [GoMap.set, GoMap.has, h, h2, ih]

theorem recordAll_append (calls : List (GoString × Int)) (call : GoString × Int)
    (s : State) :
    recordAll (calls ++ [call]) s = recordDuration call.1 call.2 (recordAll calls s) := by
  simp [recordAll, List.foldl_append]

theorem callCount_append (calls : List (GoString × Int)) (call : GoString × Int)
    (name : GoString) :
    callCount (calls ++ [call]) name
      = callCount calls name + (if call.1 = name then 1 else 0) := by
  unfold callCount
  by_cases h : call.1 = name
  · simp [List.filter_append, List.filter_cons, h]
  · simp [List.filter_append, List.filter_cons, h]

theorem callSum_append (calls : List (GoString × Int)) (call : GoString × Int)
    (name : GoString) :
    callSum (calls ++ [call]) name
      = callSum calls name + (if call.1 = name then call.2 else 0) := by
  unfold callSum
  by_cases h : call.1 = name
  · simp [List.filter_append, List.filter_cons, h]
  · simp [List.filter_append, List.filter_cons, h]

theorem recordAll_samples (calls : List (GoString × Int)) (name : GoString) :
    (recordAll calls initialState).sectionSamples.get name = callCount calls name := by
  induction calls using List.reverseRecOn with
  | nil => simp [recordAll, initialState, GoMap.get, callCount]
  | append_singleton calls call ih =>
    rw [recordAll_append, callCount_append]
    by_cases h : call.1 = name
    · subst h
      simp [recordDuration, GoMap.get_set_same, ih]
    · have hne : name ≠ call.1 := fun e => h e.symm
      simp [recordDuration, GoMap.get_set_other _ _ _ _ hne, ih, h]

theorem recordAll_totals (calls : List (GoString × Int)) (name : GoString) :
    (recordAll calls initialState).sectionTotals.get name
      = wrapInt64 (callSum calls name) := by
  induction calls using List.reverseRecOn with
  | nil => simp [recordAll, initialState, GoMap.get, callSum, wrapInt64]
  | append_singleton calls call ih =>
    rw [recordAll_append, callSum_append]
    by_cases h : call.1 = name
    · subst h
      simp [recordDuration, GoMap.get_set_same, ih, wrapInt64_wrap_add]
    · have hne : name ≠ call.1 := fun e => h e.symm
      simp [recordDuration, GoMap.get_set_other _ _ _ _ hne, ih, h]

/-! ## C1: the aggregator sums what it is given -/

/-- C1, as amended: starting from the empty aggregator, after any finite sequence of
`recordDuration(name_i, d_i)` calls the sample count of every name is the number of calls
made with that name, and the total of every name is the sum of the durations passed with
that name reduced into the `int64` range; the total is the exact sum whenever that sum
lies in the `int64` range. -/
theorem recordAll_aggregates (calls : List (GoString × Int)) (name : GoString) :
    (recordAll calls initialState).sectionSamples.get name = callCount calls name ∧
    (recordAll calls initialState).sectionTotals.get name
      = wrapInt64 (callSum calls name) ∧
    (minDuration ≤ callSum calls name ∧ callSum calls name ≤ maxDuration →
      (recordAll calls initialState).sectionTotals.get name = callSum calls name) := by
  refine ⟨recordAll_samples calls name, recordAll_totals calls name, ?_⟩
  intro hrange
  rw [recordAll_totals, wrapInt64_of_inRange _ hrange.1 hrange.2]

/-- C1 at three calls within range: the total of `db_query` is `70 + 50`. -/
theorem recordAll_aggregates_witness :
    (recordAll [("db_query", 70), ("loop", 3), ("db_query", 50)]
      initialState).sectionTotals.get "db_query" = 120 :=
  (recordAll_aggregates [("db_query", 70), ("loop", 3), ("db_query", 50)] "db_query").2.2
    (by decide)

/-- C1 as stated fails: two calls for the same name whose durations add up to `2^63`
leave the total at `-2^63`, not at the exact sum. -/
theorem recordAll_total_overflow :
    (recordAll [("a", 9223372036854775807), ("a", 1)] initialState).sectionTotals.get "a"
      = -9223372036854775808 ∧
    callSum [("a", 9223372036854775807), ("a", 1)] "a" = 9223372036854775808 ∧
    (recordAll [("a", 9223372036854775807), ("a", 1)] initialState).sectionTotals.get "a"
      ≠ callSum [("a", 9223372036854775807), ("a", 1)] "a" := by
  decide

/-! ## C6 and C5: the section tracker -/

theorem timeSince_nonneg (start now : Int) (hclock : start ≤ now) :
    0 ≤ timeSince start now := by
  unfold timeSince subMono
  simp only []
  split_ifs with h1 h2
  · unfold maxDuration; omega
  · omega
  · by_contra hneg
    apply h1
    refine ⟨by omega, ?_⟩
    rcases lt_or_eq_of_le hclock with hlt | heq
    · exact hlt
    · subst heq
      simp [wrapInt64] at hneg

theorem timeSince_eq_sub (start now : Int) (hclock : start ≤ now)
    (hspan : now - start ≤ maxDuration) : timeSince start now = now - start := by
  have hwrap : wrapInt64 (now - start) = now - start :=
    wrapInt64_of_inRange _ (by unfold minDuration; omega) hspan
  unfold timeSince subMono
  simp only [hwrap]
  split_ifs with h1 h2
  · omega
  · omega
  · rfl

theorem labelsValid_single (name : GoString) : labelsValid [name] = name.validUTF8 := by
  simp [labelsValid]

theorem stop_valid (t : Tracker) (now : Int) (s : State) (hname : t.name.validUTF8 = true) :
    (t.stop now s).panicked = false ∧
    (t.stop now s).state.sectionSamples.get t.name = s.sectionSamples.get t.name + 1 ∧
    (t.stop now s).state.sectionTotals.get t.name
      = wrapInt64 (s.sectionTotals.get t.name + timeSince t.start now) ∧
    (t.stop now s).state.sectionLatency [t.name]
      = timeSince t.start now :: s.sectionLatency [t.name] := by
  simp [Tracker.stop, ObserveSectionLatency, labelsValid_single, hname, recordDuration,
    observeSeries, GoMap.get_set_same]

/-- C6, as amended: for a section name that is valid UTF-8 and monotonic clock readings
`0 ≤ start ≤ now ≤ 2^63 - 1`, `Track(name)` followed by one call of its stop function
returns normally, computes `d = now - start ≥ 0`, raises `sectionSamples[name]` by one,
sets `sectionTotals[name]` to the `int64` sum of the old total and `d` (which is the old
total plus `d` whenever that fits `int64`), and adds one observation carrying `d` to the
section histogram for `name`; no other name's aggregate or section series, no custom
counter and no other exported series changes. -/
theorem trackThenStop_effect (s : State) (name : GoString) (start now : Int)
    (hname : name.validUTF8 = true)
    (hstart : 0 ≤ start) (hclock : start ≤ now) (hnow : now ≤ maxDuration) :
    ((Track name start s).1.stop now (Track name start s).2).panicked = false ∧
    timeSince start now = now - start ∧ 0 ≤ timeSince start now ∧
    (trackThenStop name start now s).sectionSamples.get name
      = s.sectionSamples.get name + 1 ∧
    (trackThenStop name start now s).sectionTotals.get name
      = wrapInt64 (s.sectionTotals.get name + timeSince start now) ∧
    (minDuration ≤ s.sectionTotals.get name + timeSince start now ∧
        s.sectionTotals.get name + timeSince start now ≤ maxDuration →
      (trackThenStop name start now s).sectionTotals.get name
        = s.sectionTotals.get name + timeSince start now) ∧
    (trackThenStop name start now s).sectionLatency [name]
      = timeSince start now :: s.sectionLatency [name] ∧
    (∀ other : GoString, other ≠ name →
      (trackThenStop name start now s).sectionTotals.get other
          = s.sectionTotals.get other ∧
      (trackThenStop name start now s).sectionSamples.get other
          = s.sectionSamples.get other ∧
      (trackThenStop name start now s).sectionLatency [other]
          = s.sectionLatency [other]) ∧
    (trackThenStop name start now s).customCounters = s.customCounters ∧
    (trackThenStop name start now s).businessLatency = s.businessLatency ∧
    (trackThenStop name start now s).requestLatency = s.requestLatency ∧
    (trackThenStop name start now s).requestCounter = s.requestCounter ∧
    (trackThenStop name start now s).errorCounter = s.errorCounter ∧
    (trackThenStop name start now s).loopIterations = s.loopIterations ∧
    (trackThenStop name start now s).jsonErrorCounter = s.jsonErrorCounter := by
  have hspan : now - start ≤ maxDuration := by omega
  refine ⟨?_, timeSince_eq_sub start now hclock hspan, timeSince_nonneg start now hclock,
    ?_, ?_, ?_, ?_, ?_, ?_⟩
  · simp [Track, Tracker.stop, ObserveSectionLatency, labelsValid_single, hname]
  · simp [trackThenStop, Track, Tracker.stop, ObserveSectionLatency, labelsValid_single,
      hname, recordDuration, GoMap.get_set_same]
  · simp [trackThenStop, Track, Tracker.stop, ObserveSectionLatency, labelsValid_single,
      hname, recordDuration, GoMap.get_set_same]
  · intro hrange
    simp [trackThenStop, Track, Tracker.stop, ObserveSectionLatency, labelsValid_single,
      hname, recordDuration, GoMap.get_set_same,
      wrapInt64_of_inRange _ hrange.1 hrange.2]
  · simp [trackThenStop, Track, Tracker.stop, ObserveSectionLatency, labelsValid_single,
      hname, recordDuration, observeSeries]
  · intro other hne
    simp [trackThenStop, Track, Tracker.stop, ObserveSectionLatency, labelsValid_single,
      hname, recordDuration, observeSeries, GoMap.get_set_other _ _ _ _ hne, hne]
  · simp [trackThenStop, Track, Tracker.stop, ObserveSectionLatency, labelsValid_single,
      hname, recordDuration]

/-- C6 at a concrete tracker: `Track("loop")` at reading 1000, stopped at reading 4500,
from the initial state, observes 3500 once. -/
theorem trackThenStop_effect_witness :
    (GoString.validUTF8 "loop" = true ∧
      (0 : Int) ≤ 1000 ∧ (1000 : Int) ≤ 4500 ∧ (4500 : Int) ≤ maxDuration) ∧
    (trackThenStop "loop" 1000 4500 initialState).sectionLatency ["loop"]
      = timeSince 1000 4500 :: initialState.sectionLatency ["loop"] :=
  ⟨by decide,
   (trackThenStop_effect initialState "loop" 1000 4500 (by decide) (by decide) (by decide)
      (by decide)).2.2.2.2.2.2.1⟩

/-- C6 as stated fails: after `RecordBusinessLatency("a", 2^63 - 1)` the total of `a` is
the largest `int64`; a tracker on `a` that measures one nanosecond then leaves the total
at `-2^63` instead of raising it by one. -/
theorem trackThenStop_total_overflow :
    timeSince 0 1 = 1 ∧
    (RecordBusinessLatency "a" 9223372036854775807
      initialState).state.sectionTotals.get "a" = 9223372036854775807 ∧
    (trackThenStop "a" 0 1
      (RecordBusinessLatency "a" 9223372036854775807
        initialState).state).sectionTotals.get "a"
      = -9223372036854775808 := by
  decide

/-- C5, as amended: the stop function of `Track(name)` keeps no record of having run; for
a section name that is valid UTF-8 a second call records a second measurement: it raises
`sectionSamples[name]` by one again, adds the newly elapsed duration to
`sectionTotals[name]` (in `int64` arithmetic) and adds one more observation to the section
histogram for `name`. -/
theorem trackThenStopTwice_records_again (s : State) (name : GoString)
    (start now1 now2 : Int) (hname : name.validUTF8 = true) :
    (trackThenStopTwice name start now1 now2 s).sectionSamples.get name
      = (trackThenStop name start now1 s).sectionSamples.get name + 1 ∧
    (trackThenStopTwice name start now1 now2 s).sectionTotals.get name
      = wrapInt64 ((trackThenStop name start now1 s).sectionTotals.get name
          + timeSince start now2) ∧
    (trackThenStopTwice name start now1 now2 s).sectionLatency [name]
      = timeSince start now2 :: (trackThenStop name start now1 s).sectionLatency [name] ∧
    ((trackThenStopTwice name start now1 now2 s).sectionLatency [name]).length
      = ((trackThenStop name start now1 s).sectionLatency [name]).length + 1 := by
  have hstop := stop_valid (Track name start s).1 now2 (trackThenStop name start now1 s) hname
  have hlat : (trackThenStopTwice name start now1 now2 s).sectionLatency [name]
      = timeSince start now2 :: (trackThenStop name start now1 s).sectionLatency [name] :=
    hstop.2.2.2
  refine ⟨hstop.2.1, hstop.2.2.1, hlat, ?_⟩
  rw [hlat, List.length_cons]

/-- C5 at `Track("db_query")` from the initial state, stopped at readings 5 and 7: the
name is valid UTF-8 and the second call adds a second sample. -/
theorem trackThenStopTwice_records_again_witness :
    GoString.validUTF8 "db_query" = true ∧
    (trackThenStopTwice "db_query" 0 5 7 initialState).sectionSamples.get "db_query"
      = (trackThenStop "db_query" 0 5 initialState).sectionSamples.get "db_query" + 1 :=
  ⟨by decide, (trackThenStopTwice_records_again initialState "db_query" 0 5 7 (by decide)).1⟩

/-- C5 as stated fails: from the initial state, `Track("db_query")` at reading 0 with its
stop function called at readings 5 and 7 leaves two samples, a total of 12 and two
observations, where one call leaves one sample, a total of 5 and one observation. -/
theorem trackThenStopTwice_double_counts :
    (trackThenStop "db_query" 0 5 initialState).sectionSamples.get "db_query" = 1 ∧
    (trackThenStopTwice "db_query" 0 5 7 initialState).sectionSamples.get "db_query" = 2 ∧
    (trackThenStop "db_query" 0 5 initialState).sectionTotals.get "db_query" = 5 ∧
    (trackThenStopTwice "db_query" 0 5 7 initialState).sectionTotals.get "db_query" = 12 ∧
    ((trackThenStop "db_query" 0 5 initialState).sectionLatency ["db_query"]).length = 1 ∧
    ((trackThenStopTwice "db_query" 0 5 7 initialState).sectionLatency ["db_query"]).length
      = 2 := by
  decide

/-! ## C7: the two views of the section measurements -/

theorem viewsAgree_initial : ViewsAgree initialState := by
  intro name
  simp [initialState, GoMap.get]

theorem viewsAgree_step (op : Op) (s : State) (hs : ViewsAgree s)
    (hvalid : op.namesValid = true) : ViewsAgree (op.run s) := by
  intro name
  have h := hs name
  cases op with
  | track name0 start => simpa [Op.run, Track] using h
  | stop name0 start now =>
    have hname : name0.validUTF8 = true := hvalid
    by_cases hn : name = name0
    · subst hn
      simp [Op.run, Tracker.stop, ObserveSectionLatency, labelsValid_single, hname,
        recordDuration, observeSeries, GoMap.get_set_same, h]
      omega
    · simp [Op.run, Tracker.stop, ObserveSectionLatency, labelsValid_single, hname,
        recordDuration, observeSeries, GoMap.get_set_other _ _ _ _ hn, hn, h]
  | recordBusinessLatency operation d =>
    have hname : operation.validUTF8 = true := hvalid
    by_cases hn : name = operation
    · subst hn
      simp [Op.run, RecordBusinessLatency, ObserveBusinessLatency, labelsValid_single,
        hname, recordDuration, observeSeries, GoMap.get_set_same, h]
      omega
    · simp [Op.run, RecordBusinessLatency, ObserveBusinessLatency, labelsValid_single,
        hname, recordDuration, observeSeries, GoMap.get_set_other _ _ _ _ hn, hn, h]
  | countJSONError => simpa [Op.run, CountJSONError, IncJSONError, incrementCounter] using h
  | addLoopIterations iterations =>
    by_cases hneg : float64OfInt iterations < 0
    · simpa [Op.run, AddLoopIterations, ObserveLoopIterations, incrementCounter, hneg] using h
    · simpa [Op.run, AddLoopIterations, ObserveLoopIterations, incrementCounter, hneg] using h
  | logSnapshot => simpa [Op.run, LogSnapshot] using h

theorem viewsAgree_runOps (ops : List Op) (s : State) (hs : ViewsAgree s)
    (hvalid : ∀ op ∈ ops, op.namesValid = true) : ViewsAgree (runOps ops s) := by
  induction ops generalizing s with
  | nil => simpa [runOps] using hs
  | cons op rest ih =>
    have hstep : runOps (op :: rest) s = runOps rest (op.run s) := by
      simp [runOps]
    rw [hstep]
    exact ih (op.run s)
      (viewsAgree_step op s hs (hvalid op (List.mem_cons_self op rest)))
      (fun op' hmem => hvalid op' (List.mem_cons_of_mem op hmem))

/-- C7, as amended: in every state reached from the initial state by a sequence of
`Track`, stop-function, `RecordBusinessLatency`, `CountJSONError`, `AddLoopIterations`
and `LogSnapshot` calls whose section and operation names are valid UTF-8, for every name
the in-memory sample count `sectionSamples[name]` equals the number of observations in the
section-latency histogram for `name` plus the number of observations in the
business-latency histogram for `name`. -/
theorem runOps_views_agree (ops : List Op) (name : GoString)
    (hvalid : ∀ op ∈ ops, op.namesValid = true) :
    (runOps ops initialState).sectionSamples.get name
      = (((runOps ops initialState).sectionLatency [name]).length : Int)
        + (((runOps ops initialState).businessLatency [name]).length : Int) :=
  viewsAgree_runOps ops initialState viewsAgree_initial hvalid name

/-- C7 at the operations of one `handlers.Work` request: two trackers, the loop count and
the business latency; every name is valid UTF-8 and the sample count of `work_handler`
is the sum of its two histogram counts. -/
theorem runOps_views_agree_witness :
    (runOps [Op.track "db_query" 0, Op.stop "db_query" 0 70, Op.track "loop" 70,
        Op.stop "loop" 70 75, Op.addLoopIterations 100000,
        Op.recordBusinessLatency "work_handler" 80] initialState).sectionSamples.get
          "work_handler"
      = (((runOps [Op.track "db_query" 0, Op.stop "db_query" 0 70, Op.track "loop" 70,
            Op.stop "loop" 70 75, Op.addLoopIterations 100000,
            Op.recordBusinessLatency "work_handler" 80] initialState).sectionLatency
              ["work_handler"]).length : Int)
        + (((runOps [Op.track "db_query" 0, Op.stop "db_query" 0 70, Op.track "loop" 70,
            Op.stop "loop" 70 75, Op.addLoopIterations 100000,
            Op.recordBusinessLatency "work_handler" 80] initialState).businessLatency
              ["work_handler"]).length : Int) :=
  runOps_views_agree
    [Op.track "db_query" 0, Op.stop "db_query" 0 70, Op.track "loop" 70,
      Op.stop "loop" 70 75, Op.addLoopIterations 100000,
      Op.recordBusinessLatency "work_handler" 80]
    "work_handler" (by decide)

/-- C7 as stated fails: after the single call `RecordBusinessLatency("work_handler", 5)`
the in-memory sample count of `work_handler` is 1 while the section-latency histogram has
no observation for it. -/
theorem runOps_views_diverge :
    (runOps [Op.recordBusinessLatency "work_handler" 5]
      initialState).sectionSamples.get "work_handler" = 1 ∧
    ((runOps [Op.recordBusinessLatency "work_handler" 5]
      initialState).sectionLatency ["work_handler"]).length = 0 := by
  decide

/-! ## C8: counting one encode failure -/

/-- C8: from the initial state one `CountJSONError` call leaves both encode-error counters
at exactly 1; from any state it adds exactly 1 to `customCounters["json_encode_error"]`
and to `json_encode_errors_total`, and changes no other in-memory counter (value or
presence), no section total or sample count, no other exported counter or histogram, and
not the log. -/
theorem CountJSONError_effect (s : State) :
    (CountJSONError initialState).customCounters.get "json_encode_error" = 1 ∧
    (CountJSONError initialState).jsonErrorCounter = 1 ∧
    (CountJSONError s).customCounters.get "json_encode_error"
      = s.customCounters.get "json_encode_error" + 1 ∧
    (CountJSONError s).jsonErrorCounter = s.jsonErrorCounter + 1 ∧
    (∀ name : GoString, name ≠ "json_encode_error" →
      (CountJSONError s).customCounters.get name = s.customCounters.get name ∧
      (CountJSONError s).customCounters.has name = s.customCounters.has name) ∧
    (CountJSONError s).sectionTotals = s.sectionTotals ∧
    (CountJSONError s).sectionSamples = s.sectionSamples ∧
    (CountJSONError s).requestCounter = s.requestCounter ∧
    (CountJSONError s).errorCounter = s.errorCounter ∧
    (CountJSONError s).requestLatency = s.requestLatency ∧
    (CountJSONError s).sectionLatency = s.sectionLatency ∧
    (CountJSONError s).businessLatency = s.businessLatency ∧
    (CountJSONError s).loopIterations = s.loopIterations ∧
    (CountJSONError s).log = s.log := by
  refine ⟨by decide, by decide, ?_, ?_, ?_, ?_⟩
  · simp [CountJSONError, IncJSONError, incrementCounter, GoMap.get_set_same]
  · simp [CountJSONError, IncJSONError, incrementCounter]
  · intro name hne
    simp [CountJSONError, IncJSONError, incrementCounter, GoMap.get_set_other _ _ _ _ hne,
      GoMap.has_set_other _ _ _ _ hne]
  · simp [CountJSONError, IncJSONError, incrementCounter]

/-! ## C9: aggregates never lose entries; when they grow -/

theorem recordDuration_keeps_entries (name0 : GoString) (d : Int) (s : State)
    (name : GoString) :
    (s.sectionTotals.has name = true → (recordDuration name0 d s).sectionTotals.has name = true) ∧
    (s.sectionSamples.has name = true →
      (recordDuration name0 d s).sectionSamples.has name = true) ∧
    s.sectionSamples.get name ≤ (recordDuration name0 d s).sectionSamples.get name ∧
    (recordDuration name0 d s).customCounters = s.customCounters := by
  refine ⟨?_, ?_, ?_, ?_⟩
  · intro h
    exact GoMap.has_set_of_has _ _ _ _ h
  · intro h
    exact GoMap.has_set_of_has _ _ _ _ h
  · by_cases hn : name = name0
    · subst hn
      simp [recordDuration, GoMap.get_set_same]
    · simp [recordDuration, GoMap.get_set_other _ _ _ _ hn]
  · simp [recordDuration]

theorem recordDuration_total_grows (name0 : GoString) (d : Int) (s : State)
    (name : GoString)
    (hd : 0 ≤ d) (hfit : s.sectionTotals.get name0 + d ≤ maxDuration) :
    s.sectionTotals.get name ≤ (recordDuration name0 d s).sectionTotals.get name := by
  by_cases hn : name = name0
  · subst hn
    have hge := wrapInt64_ge_of_le_max _ hfit
    simp only [recordDuration, GoMap.get_set_same]
    omega
  · simp [recordDuration, GoMap.get_set_other _ _ _ _ hn]

theorem incrementCounter_grows (name0 : GoString) (s : State) (name : GoString) :
    (s.customCounters.has name = true →
      (incrementCounter name0 s).customCounters.has name = true) ∧
    s.customCounters.get name ≤ (incrementCounter name0 s).customCounters.get name := by
  refine ⟨?_, ?_⟩
  · intro h
    exact GoMap.has_set_of_has _ _ _ _ h
  · by_cases hn : name = name0
    · subst hn
      simp [incrementCounter, GoMap.get_set_same]
    · simp [incrementCounter, GoMap.get_set_other _ _ _ _ hn]

theorem stop_maps (t : Tracker) (now : Int) (s : State) :
    (t.stop now s).state.sectionTotals
      = (recordDuration t.name (timeSince t.start now) s).sectionTotals ∧
    (t.stop now s).state.sectionSamples
      = (recordDuration t.name (timeSince t.start now) s).sectionSamples ∧
    (t.stop now s).state.customCounters = s.customCounters := by
  by_cases hname : labelsValid [t.name] = true
  · simp [Tracker.stop, ObserveSectionLatency, hname, recordDuration]
  · simp [Tracker.stop, ObserveSectionLatency, hname, recordDuration]

theorem RecordBusinessLatency_maps (operation : GoString) (d : Int) (s : State) :
    (RecordBusinessLatency operation d s).state.sectionTotals
      = (recordDuration operation d s).sectionTotals ∧
    (RecordBusinessLatency operation d s).state.sectionSamples
      = (recordDuration operation d s).sectionSamples ∧
    (RecordBusinessLatency operation d s).state.customCounters = s.customCounters := by
  by_cases hname : labelsValid [operation] = true
  · simp [RecordBusinessLatency, ObserveBusinessLatency, hname, recordDuration]
  · simp [RecordBusinessLatency, ObserveBusinessLatency, hname, recordDuration]

theorem AddLoopIterations_maps (iterations : Int) (s : State) :
    (AddLoopIterations iterations s).state.sectionTotals = s.sectionTotals ∧
    (AddLoopIterations iterations s).state.sectionSamples = s.sectionSamples ∧
    (AddLoopIterations iterations s).state.customCounters
      = (incrementCounter "loop_iterations" s).customCounters := by
  by_cases hneg : float64OfInt iterations < 0
  · simp [AddLoopIterations, ObserveLoopIterations, incrementCounter, hneg]
  · simp [AddLoopIterations, ObserveLoopIterations, incrementCounter, hneg]

theorem Op_run_step (op : Op) (s : State) :
    (∀ name : GoString, s.sectionTotals.has name = true →
      (op.run s).sectionTotals.has name = true) ∧
    (∀ name : GoString, s.sectionSamples.has name = true →
      (op.run s).sectionSamples.has name = true) ∧
    (∀ name : GoString, s.customCounters.has name = true →
      (op.run s).customCounters.has name = true) ∧
    (∀ name : GoString, s.sectionSamples.get name ≤ (op.run s).sectionSamples.get name) ∧
    (∀ name : GoString, s.customCounters.get name ≤ (op.run s).customCounters.get name) ∧
    ((∀ (name0 : GoString) (d : Int), op.recorded = some (name0, d) →
        0 ≤ d ∧ s.sectionTotals.get name0 + d ≤ maxDuration) →
      ∀ name : GoString, s.sectionTotals.get name ≤ (op.run s).sectionTotals.get name) := by
  cases op with
  | track name0 start =>
    simp [Op.run, Track]
  | stop name0 start now =>
    obtain ⟨ht, hs, hc⟩ := stop_maps { name := name0, start := start } now s
    simp only [Op.run, ht, hs, hc]
    refine ⟨fun name => (recordDuration_keeps_entries _ _ s name).1,
      fun name => (recordDuration_keeps_entries _ _ s name).2.1,
      fun _ h => h,
      fun name => (recordDuration_keeps_entries _ _ s name).2.2.1,
      fun _ => le_refl _, ?_⟩
    intro hsafe name
    obtain ⟨hd, hfit⟩ := hsafe name0 (timeSince start now) rfl
    exact recordDuration_total_grows _ _ s name hd hfit
  | recordBusinessLatency operation d =>
    obtain ⟨ht, hs, hc⟩ := RecordBusinessLatency_maps operation d s
    simp only [Op.run, ht, hs, hc]
    refine ⟨fun name => (recordDuration_keeps_entries _ _ s name).1,
      fun name => (recordDuration_keeps_entries _ _ s name).2.1,
      fun _ h => h,
      fun name => (recordDuration_keeps_entries _ _ s name).2.2.1,
      fun _ => le_refl _, ?_⟩
    intro hsafe name
    obtain ⟨hd, hfit⟩ := hsafe operation d rfl
    exact recordDuration_total_grows _ _ s name hd hfit
  | countJSONError =>
    exact ⟨fun _ h => h, fun _ h => h,
      fun name => (incrementCounter_grows "json_encode_error" s name).1,
      fun _ => le_refl _,
      fun name => (incrementCounter_grows "json_encode_error" s name).2,
      fun _ _ => le_refl _⟩
  | addLoopIterations iterations =>
    obtain ⟨ht, hs, hc⟩ := AddLoopIterations_maps iterations s
    simp only [Op.run, ht, hs, hc]
    exact ⟨fun _ h => h, fun _ h => h,
      fun name => (incrementCounter_grows "loop_iterations" s name).1,
      fun _ => le_refl _,
      fun name => (incrementCounter_grows "loop_iterations" s name).2,
      fun _ _ => le_refl _⟩
  | logSnapshot =>
    simp [Op.run, LogSnapshot]

/-- C9, as amended: in every state reached from the initial state by exported operations,
no further exported operation (`Track`, its stop function, `RecordBusinessLatency`,
`CountJSONError`, `AddLoopIterations`, `LogSnapshot`), with any arguments, removes an
entry of `sectionTotals`, `sectionSamples` or `customCounters`, lowers a sample count or
lowers an in-memory counter; and no section total decreases under an operation whose
recorded duration `d` is non-negative and keeps the total of its name at most
`2^63 - 1`. -/
theorem Op_run_monotone (ops : List Op) (op : Op) :
    (∀ name : GoString, (runOps ops initialState).sectionTotals.has name = true →
      (op.run (runOps ops initialState)).sectionTotals.has name = true) ∧
    (∀ name : GoString, (runOps ops initialState).sectionSamples.has name = true →
      (op.run (runOps ops initialState)).sectionSamples.has name = true) ∧
    (∀ name : GoString, (runOps ops initialState).customCounters.has name = true →
      (op.run (runOps ops initialState)).customCounters.has name = true) ∧
    (∀ name : GoString, (runOps ops initialState).sectionSamples.get name
      ≤ (op.run (runOps ops initialState)).sectionSamples.get name) ∧
    (∀ name : GoString, (runOps ops initialState).customCounters.get name
      ≤ (op.run (runOps ops initialState)).customCounters.get name) ∧
    ((∀ (name0 : GoString) (d : Int), op.recorded = some (name0, d) →
        0 ≤ d ∧ (runOps ops initialState).sectionTotals.get name0 + d ≤ maxDuration) →
      ∀ name : GoString, (runOps ops initialState).sectionTotals.get name
        ≤ (op.run (runOps ops initialState)).sectionTotals.get name) :=
  Op_run_step op (runOps ops initialState)

/-- C9 at `RecordBusinessLatency("work_handler", 3)` after a first
`RecordBusinessLatency("work_handler", 5)`: the duration is non-negative and fits, and the
total of `work_handler` does not decrease. -/
theorem Op_run_monotone_witness :
    (runOps [Op.recordBusinessLatency "work_handler" 5]
        initialState).sectionTotals.get "work_handler"
      ≤ ((Op.recordBusinessLatency "work_handler" 3).run
          (runOps [Op.recordBusinessLatency "work_handler" 5]
            initialState)).sectionTotals.get "work_handler" :=
  (Op_run_monotone [Op.recordBusinessLatency "work_handler" 5]
      (Op.recordBusinessLatency "work_handler" 3)).2.2.2.2.2
    (by
      intro name0 d h
      simp only [Op.recorded, Option.some.injEq, Prod.mk.injEq] at h
      obtain ⟨h1, h2⟩ := h
      subst h1
      subst h2
      decide)
    "work_handler"

/-- C9 as stated fails: `RecordBusinessLatency` accepts a negative duration; after
`RecordBusinessLatency("work_handler", 5)` the total of `work_handler` is 5, and
`RecordBusinessLatency("work_handler", -3)` lowers it to 2. -/
theorem RecordBusinessLatency_lowers_total :
    (runOps [Op.recordBusinessLatency "work_handler" 5]
      initialState).sectionTotals.get "work_handler" = 5 ∧
    ((Op.recordBusinessLatency "work_handler" (-3)).run
      (runOps [Op.recordBusinessLatency "work_handler" 5]
        initialState)).sectionTotals.get "work_handler" = 2 := by
  decide

/-! ## C10: the loop-iteration counter -/

theorem addLoopAll_in_memory (ns : List Int) (s : State) :
    (addLoopAll ns s).customCounters.get "loop_iterations"
      = s.customCounters.get "loop_iterations" + (ns.length : Int) := by
  induction ns generalizing s with
  | nil => simp [addLoopAll]
  | cons n rest ih =>
    have hstep : addLoopAll (n :: rest) s = addLoopAll rest (AddLoopIterations n s).state := by
      simp [addLoopAll]
    rw [hstep, ih, (AddLoopIterations_maps n s).2.2]
    simp only [incrementCounter, GoMap.get_set_same, List.length_cons]
    push_cast
    omega

/-- C10 on the code: `AddLoopIterations(100000)` from the initial state returns normally
and leaves the in-memory counter `customCounters["loop_iterations"]` at 1 while the
exported counter `work_loop_iterations_total` is 100000; after two such calls the
in-memory counter is 2 and the exported counter is 200000. -/
theorem AddLoopIterations_views_differ :
    (AddLoopIterations 100000 initialState).panicked = false ∧
    (AddLoopIterations 100000 initialState).state.customCounters.get "loop_iterations" = 1 ∧
    (AddLoopIterations 100000 initialState).state.loopIterations = 100000 ∧
    (addLoopAll [100000, 100000] initialState).customCounters.get "loop_iterations" = 2 ∧
    (addLoopAll [100000, 100000] initialState).loopIterations = 200000 := by
  decide

/-! ## C2, C3, C4: the middleware -/

theorem WriteHeader_foldl_status (codes : List Int) (recorder : statusRecorder) :
    (codes.foldl statusRecorder.WriteHeader recorder).status
      = codes.getLast?.getD recorder.status := by
  induction codes using List.reverseRecOn with
  | nil => simp
  | append_singleton codes code _ =>
    simp [List.foldl_append, statusRecorder.WriteHeader]

theorem WriteHeader_foldl_forwards (codes : List Int) (recorder : statusRecorder) :
    (codes.foldl statusRecorder.WriteHeader recorder).ResponseWriter.headerCalls
      = recorder.ResponseWriter.headerCalls ++ codes := by
  induction codes using List.reverseRecOn with
  | nil => simp
  | append_singleton codes code ih =>
    simp [List.foldl_append, statusRecorder.WriteHeader, ih]

/-- C2 on the code: when the inner handler calls `WriteHeader(500)` and then
`WriteHeader(200)`, both calls reach the real writer in that order, the recorder ends
with status 200, and the middleware counts the request but leaves the error counter for
`(GET, /api/work, "500")` at 0. -/
theorem InstrumentHandler_last_status_wins :
    (InstrumentHandler (headerWriter [500, 200]) 0 5 { headerCalls := [] }
      { Method := "GET", Path := "/api/work" } initialState).writer.headerCalls
      = [500, 200] ∧
    (InstrumentHandler (headerWriter [500, 200]) 0 5 { headerCalls := [] }
      { Method := "GET", Path := "/api/work" } initialState).status = 200 ∧
    (InstrumentHandler (headerWriter [500, 200]) 0 5 { headerCalls := [] }
      { Method := "GET", Path := "/api/work" } initialState).state.requestCounter
        ["GET", "/api/work"] = 1 ∧
    (InstrumentHandler (headerWriter [500, 200]) 0 5 { headerCalls := [] }
      { Method := "GET", Path := "/api/work" } initialState).state.errorCounter
        ["GET", "/api/work", "500"] = 0 := by
  decide

theorem validBytes_of_ascii (l : List Nat) (h : ∀ b ∈ l, b < 0x80) :
    validBytes l = true := by
  induction l with
  | nil => simp [validBytes]
  | cons b rest ih =>
    have hb : b < 0x80 := h b (List.mem_cons_self b rest)
    have hrest : ∀ c ∈ rest, c < 0x80 := fun c hc => h c (List.mem_cons_of_mem b hc)
    rw [validBytes.eq_def]
    simp only [hb, if_true]
    exact ih hrest

theorem formatDigits_ascii (fuel u : Nat) (acc : List Nat) (hacc : ∀ b ∈ acc, b < 0x80) :
    ∀ b ∈ formatDigits fuel u acc, b < 0x80 := by
  induction fuel generalizing u acc with
  | zero => simpa [formatDigits] using hacc
  | succ fuel ih =>
    unfold formatDigits
    split_ifs with hu
    · intro b hb
      rcases List.mem_cons.mp hb with rfl | hmem
      · omega
      · exact hacc b hmem
    · apply ih
      intro b hb
      rcases List.mem_cons.mp hb with rfl | hmem
      · omega
      · exact hacc b hmem

theorem Itoa_validUTF8 (n : Int) : (Itoa n).validUTF8 = true := by
  have hdigits : ∀ b ∈ formatDigits 20 n.natAbs [], b < 0x80 :=
    formatDigits_ascii 20 n.natAbs [] (by simp)
  unfold Itoa GoString.validUTF8
  split_ifs with hneg
  · apply validBytes_of_ascii
    intro b hb
    rcases List.mem_cons.mp hb with rfl | hmem
    · omega
    · exact hdigits b hmem
  · exact validBytes_of_ascii _ hdigits

theorem Itoa_status (st : Int) (hlo : 500 ≤ st) (hhi : st ≤ 599) :
    Itoa st = GoString.ofText (toString st) := by
  interval_cases st <;> decide

theorem labelsValid_status (r : Request) (st : Int)
    (hlabels : labelsValid [r.Method, r.Path] = true) :
    labelsValid [r.Method, r.Path, Itoa st] = true := by
  simp only [labelsValid, List.all_cons, List.all_nil, Bool.and_true, Bool.and_eq_true]
    at hlabels ⊢
  exact ⟨hlabels.1, hlabels.2, Itoa_validUTF8 st⟩

/-- The behaviour C3 asks for, on the requests whose method and path are valid UTF-8:
when the inner handler returns normally with captured status `st`, the middleware returns
normally, raises the request counter for `(method, path)` by exactly 1 and touches no
other request series; if `500 ≤ st ≤ 599` it raises the error counter series
`(method, path, decimal string of st)` by exactly 1 and touches no other error series; if
`st < 500` it leaves every error counter series as the inner handler left it. -/
theorem InstrumentHandler_counters_valid (next : Handler) (start now : Int)
    (w : ResponseWriter) (r : Request) (s : State)
    (hret : (innerRun next w r s).panicked = false)
    (hlabels : labelsValid [r.Method, r.Path] = true) :
    (InstrumentHandler next start now w r s).panicked = false ∧
    ((500 ≤ (innerRun next w r s).recorder.status ∧
        (innerRun next w r s).recorder.status ≤ 599) →
      (InstrumentHandler next start now w r s).state.errorCounter
          [r.Method, r.Path, GoString.ofText (toString (innerRun next w r s).recorder.status)]
        = (innerRun next w r s).state.errorCounter
            [r.Method, r.Path,
              GoString.ofText (toString (innerRun next w r s).recorder.status)] + 1 ∧
      ∀ labels : List GoString,
        labels ≠ [r.Method, r.Path,
          GoString.ofText (toString (innerRun next w r s).recorder.status)] →
        (InstrumentHandler next start now w r s).state.errorCounter labels
          = (innerRun next w r s).state.errorCounter labels) ∧
    ((innerRun next w r s).recorder.status < 500 →
      (InstrumentHandler next start now w r s).state.errorCounter
        = (innerRun next w r s).state.errorCounter) ∧
    (InstrumentHandler next start now w r s).state.requestCounter [r.Method, r.Path]
      = (innerRun next w r s).state.requestCounter [r.Method, r.Path] + 1 ∧
    (∀ labels : List GoString, labels ≠ [r.Method, r.Path] →
      (InstrumentHandler next start now w r s).state.requestCounter labels
        = (innerRun next w r s).state.requestCounter labels) := by
  have herr := labelsValid_status r (innerRun next w r s).recorder.status hlabels
  unfold innerRun at hret herr
  refine ⟨?_, ?_, ?_, ?_, ?_⟩
  · by_cases hge : StatusInternalServerError ≤
        (next { ResponseWriter := w, status := StatusOK } r s).recorder.status
    · simp [InstrumentHandler, hret, hlabels, herr, hge]
    · simp [InstrumentHandler, hret, hlabels, hge]
  · intro hst
    have hge : StatusInternalServerError ≤
        (next { ResponseWriter := w, status := StatusOK } r s).recorder.status := hst.1
    have hitoa := Itoa_status _ hst.1 hst.2
    unfold innerRun at hitoa
    simp only [innerRun]
    rw [← hitoa]
    refine ⟨?_, ?_⟩
    · simp [InstrumentHandler, hret, hlabels, herr, hge, incSeries]
    · intro labels hne
      simp [InstrumentHandler, hret, hlabels, herr, hge, incSeries, hne]
  · intro hst
    have hlt : ¬ StatusInternalServerError ≤
        (next { ResponseWriter := w, status := StatusOK } r s).recorder.status := by
      unfold innerRun at hst
      unfold StatusInternalServerError
      omega
    simp [InstrumentHandler, innerRun, hret, hlabels, hlt]
  · by_cases hge : StatusInternalServerError ≤
        (next { ResponseWriter := w, status := StatusOK } r s).recorder.status
    · simp [InstrumentHandler, innerRun, hret, hlabels, herr, hge, incSeries]
    · simp [InstrumentHandler, innerRun, hret, hlabels, hge, incSeries]
  · intro labels hne
    by_cases hge : StatusInternalServerError ≤
        (next { ResponseWriter := w, status := StatusOK } r s).recorder.status
    · simp [InstrumentHandler, innerRun, hret, hlabels, herr, hge, incSeries, hne]
    · simp [InstrumentHandler, innerRun, hret, hlabels, hge, incSeries, hne]

/-- C3 on the code: for `GET /%ff` (the path is the byte `0x2f` followed by `0xff`, not
valid UTF-8) the inner handler writes its status and returns normally, but the request
through the instrumented handler ends in a panic and nothing is counted: with status 200
the request counter of the route stays 0, and with status 503 the request counter and the
error counter of `(GET, path, "503")` both stay 0.  The same handlers on `GET /api/work`
are counted: one request each, and one error under `"503"`, or under `"500"` for status
500. -/
theorem InstrumentHandler_invalid_path_counts_nothing :
    (innerRun (headerWriter [200]) { headerCalls := [] }
      { Method := "GET", Path := { bytes := [47, 255] } } initialState).panicked = false ∧
    (InstrumentHandler (headerWriter [200]) 0 5 { headerCalls := [] }
      { Method := "GET", Path := { bytes := [47, 255] } } initialState).panicked = true ∧
    (InstrumentHandler (headerWriter [200]) 0 5 { headerCalls := [] }
      { Method := "GET", Path := { bytes := [47, 255] } } initialState).state.requestCounter
        ["GET", { bytes := [47, 255] }] = 0 ∧
    (InstrumentHandler (headerWriter [503]) 0 5 { headerCalls := [] }
      { Method := "GET", Path := { bytes := [47, 255] } } initialState).status = 503 ∧
    (InstrumentHandler (headerWriter [503]) 0 5 { headerCalls := [] }
      { Method := "GET", Path := { bytes := [47, 255] } } initialState).state.requestCounter
        ["GET", { bytes := [47, 255] }] = 0 ∧
    (InstrumentHandler (headerWriter [503]) 0 5 { headerCalls := [] }
      { Method := "GET", Path := { bytes := [47, 255] } } initialState).state.errorCounter
        ["GET", { bytes := [47, 255] }, "503"] = 0 ∧
    (InstrumentHandler (headerWriter [200]) 0 5 { headerCalls := [] }
      { Method := "GET", Path := "/api/work" } initialState).panicked = false ∧
    (InstrumentHandler (headerWriter [200]) 0 5 { headerCalls := [] }
      { Method := "GET", Path := "/api/work" } initialState).state.requestCounter
        ["GET", "/api/work"] = 1 ∧
    (InstrumentHandler (headerWriter [503]) 0 5 { headerCalls := [] }
      { Method := "GET", Path := "/api/work" } initialState).state.requestCounter
        ["GET", "/api/work"] = 1 ∧
    (InstrumentHandler (headerWriter [503]) 0 5 { headerCalls := [] }
      { Method := "GET", Path := "/api/work" } initialState).state.errorCounter
        ["GET", "/api/work", "503"] = 1 ∧
    (InstrumentHandler (headerWriter [500]) 0 5 { headerCalls := [] }
      { Method := "GET", Path := "/api/work" } initialState).state.errorCounter
        ["GET", "/api/work", "500"] = 1 ∧
    (InstrumentHandler (headerWriter [500]) 0 5 { headerCalls := [] }
      { Method := "GET", Path := "/api/work" } initialState).state.errorCounter
        ["GET", "/api/work", "503"] = 0 := by
  decide

/-- The behaviour C4 asks for, on the requests whose inner handler returns normally and
whose method and path are valid UTF-8: the completion step happens exactly once. -/
theorem InstrumentHandler_completion_valid (next : Handler) (start now : Int)
    (w : ResponseWriter) (r : Request) (s : State)
    (hret : (innerRun next w r s).panicked = false)
    (hlabels : labelsValid [r.Method, r.Path] = true) :
    (InstrumentHandler next start now w r s).panicked = false ∧
    (InstrumentHandler next start now w r s).state.requestCounter [r.Method, r.Path]
      = (innerRun next w r s).state.requestCounter [r.Method, r.Path] + 1 ∧
    (InstrumentHandler next start now w r s).state.requestLatency [r.Method, r.Path]
      = timeSince start now
          :: (innerRun next w r s).state.requestLatency [r.Method, r.Path] := by
  have herr := labelsValid_status r (innerRun next w r s).recorder.status hlabels
  unfold innerRun at hret herr
  by_cases hge : StatusInternalServerError ≤
      (next { ResponseWriter := w, status := StatusOK } r s).recorder.status
  · simp [InstrumentHandler, innerRun, hret, hlabels, herr, hge, incSeries, observeSeries]
  · simp [InstrumentHandler, innerRun, hret, hlabels, hge, incSeries, observeSeries]

theorem InstrumentHandler_panic_passes (next : Handler) (start now : Int)
    (w : ResponseWriter) (r : Request) (s : State)
    (hpanic : (innerRun next w r s).panicked = true) :
    (InstrumentHandler next start now w r s).panicked = true ∧
    (InstrumentHandler next start now w r s).state = (innerRun next w r s).state := by
  unfold innerRun at hpanic
  simp [InstrumentHandler, innerRun, hpanic]

/-- C4 on the code: when the inner handler panics on `GET /api/work`, the request through
the instrumented handler ends in the same panic, the request counter of the route stays 0
and the request-latency histogram of the route stays empty: the completion step happens
zero times.  When the handler returns instead, the request is counted once and its
latency of 5 is observed once. -/
theorem InstrumentHandler_panic_skips_completion :
    (InstrumentHandler (panickingHandler []) 0 5 { headerCalls := [] }
      { Method := "GET", Path := "/api/work" } initialState).panicked = true ∧
    (InstrumentHandler (panickingHandler []) 0 5 { headerCalls := [] }
      { Method := "GET", Path := "/api/work" } initialState).state.requestCounter
        ["GET", "/api/work"] = 0 ∧
    (InstrumentHandler (panickingHandler []) 0 5 { headerCalls := [] }
      { Method := "GET", Path := "/api/work" } initialState).state.requestLatency
        ["GET", "/api/work"] = [] ∧
    (InstrumentHandler (headerWriter []) 0 5 { headerCalls := [] }
      { Method := "GET", Path := "/api/work" } initialState).panicked = false ∧
    (InstrumentHandler (headerWriter []) 0 5 { headerCalls := [] }
      { Method := "GET", Path := "/api/work" } initialState).state.requestCounter
        ["GET", "/api/work"] = 1 ∧
    (InstrumentHandler (headerWriter []) 0 5 { headerCalls := [] }
      { Method := "GET", Path := "/api/work" } initialState).state.requestLatency
        ["GET", "/api/work"] = [5] := by
  decide

/-! ## The panics and the arithmetic of the Prometheus library -/

/-- A tracker on the section name `"\xff"` (one byte, not valid UTF-8): the stop function
logs and runs `recordDuration`, then `sectionLatency.WithLabelValues` panics, so the
sample count is 1 and the section histogram has no observation. -/
theorem stop_invalid_name_panics :
    ((Track { bytes := [255] } 0 initialState).1.stop 5
      (Track { bytes := [255] } 0 initialState).2).panicked = true ∧
    (trackThenStop { bytes := [255] } 0 5 initialState).sectionSamples.get
      { bytes := [255] } = 1 ∧
    (trackThenStop { bytes := [255] } 0 5 initialState).sectionLatency
      [{ bytes := [255] }] = [] := by
  decide

/-- The call `RecordBusinessLatency("\xff", 5)` runs `recordDuration` and then panics in
`businessLatency.WithLabelValues`. -/
theorem RecordBusinessLatency_invalid_name_panics :
    (RecordBusinessLatency { bytes := [255] } 5 initialState).panicked = true ∧
    (RecordBusinessLatency { bytes := [255] } 5 initialState).state.sectionSamples.get
      { bytes := [255] } = 1 ∧
    (RecordBusinessLatency { bytes := [255] } 5 initialState).state.businessLatency
      [{ bytes := [255] }] = [] := by
  decide

/-- The exported loop counter receives `float64(iterations)` and stores integral sums in
a `uint64`: `float64(2^63 - 1)` is `2^63`, one `AddLoopIterations(2^63 - 1)` leaves
`2^63` and a second one wraps the counter to 0; a negative argument panics after the
in-memory counter was incremented. -/
theorem AddLoopIterations_float_and_wrap :
    float64OfInt 9223372036854775807 = 9223372036854775808 ∧
    float64OfInt 9007199254740993 = 9007199254740992 ∧
    (addLoopAll [9223372036854775807] initialState).loopIterations
      = 9223372036854775808 ∧
    (addLoopAll [9223372036854775807, 9223372036854775807] initialState).loopIterations
      = 0 ∧
    (AddLoopIterations (-1) initialState).panicked = true ∧
    (AddLoopIterations (-1) initialState).state.customCounters.get "loop_iterations" = 1 ∧
    (AddLoopIterations (-1) initialState).state.loopIterations = 0 := by
  decide

end GoMetrics
